import Mathlib

/-!
Verification development for the per-tenant sales-forecasting service
(prediction_model/app.py).  The Python source is shallowly embedded over ℚ:
pandas dataframes become lists of records, numpy arrays become lists of
rationals, and the HTTP handlers become pure functions from request data to
a response structure plus an explicit model-store state.

Conventions of the embedding:
* A raw record (one row of the /retrain data array) is a `SalesRecord`.
  List-valued covariates (holidays_list, festivals, local_events) are stored
  already canonicalized to their json.dumps string, since only that canonical
  string ever enters the pipeline.
* Dates are integers (chronological ordinals); date-string parsing is not
  modelled.
* The trained PatchTST network together with the RevIN denormalization of its
  first forecast step (which involves a floating-point sqrt) is abstracted as
  one function `NetFn` from the batch of per-item context windows to one
  (sales_amount, sales_quantity) pair per batch element; the gradient-descent
  trainer is likewise a parameter `netT`.  Everything downstream of that value
  (clamping, rounding, confidence, context update) is embedded exactly.
* Python `set` iteration order (used by `list(set(...))[0]` when picking the
  fallback class for unseen categories) is run-dependent; it is modelled by an
  explicit enumeration parameter.
-/

/-- CONFIG["context_window"] in app.py. -/
def contextWindow : Nat := 60

/-- CONFIG["forecast_horizon"] in app.py. -/
def forecastHorizon : Nat := 7

/-- CONFIG["min_samples_for_dl"] in app.py. -/
def minSamplesForDL : Nat := 40

/-- CONFIG["num_targets"] in app.py: the two target columns sales_amount and
sales_quantity. -/
def numTargets : Nat := 2

/-- Number of required feature columns (len(REQUIRED_COLUMNS) in app.py). -/
def numRequiredColumns : Nat := 11

/-- One row of the /retrain data array, with every required field present and
well-typed.  The three list-valued covariates are stored as their canonical
json.dumps string (see the header comment). -/
structure SalesRecord where
  date : ℤ
  product_id : String
  sales_amount : ℚ
  sales_quantity : ℚ
  weather_condition : String
  temperature : ℚ
  fuel_price : ℚ
  has_offers : ℤ
  offer_amount : ℚ
  is_holiday : ℤ
  holidays_list : String
  festivals : String
  local_events : String
deriving DecidableEq

/-- A future entry of /predict or /predict_custom with only a date: every
missing column is filled by _process_features with 0 / 0.0 / "unknown"
(app.py lines 211-224), and the dummy targets are 0 (lines 389-392). -/
def mkFuture (d : ℤ) : SalesRecord :=
  { date := d, product_id := "", sales_amount := 0, sales_quantity := 0,
    weather_condition := "unknown", temperature := 0, fuel_price := 0,
    has_offers := 0, offer_amount := 0, is_holiday := 0,
    holidays_list := "unknown", festivals := "unknown",
    local_events := "unknown" }

/-! ### Stable helpers: deduplication, sorting, trailing slices -/

/-- First-occurrence deduplication, as pandas Series.unique. -/
def uniqAux [DecidableEq α] (seen : List α) : List α → List α
  | [] => []
  | x :: xs => if x ∈ seen then uniqAux seen xs else x :: uniqAux (x :: seen) xs

/-- Codepoint-lexicographic comparison of character lists (the order Python
and numpy use on strings). -/
def charListLe : List Char → List Char → Bool
  | [], _ => true
  | _ :: _, [] => false
  | a :: as, b :: bs =>
    if a.toNat < b.toNat then true
    else if b.toNat < a.toNat then false
    else charListLe as bs

/-- Codepoint-lexicographic string comparison. -/
def strLe (a b : String) : Bool := charListLe a.data b.data

/-- Insert a string into a sorted list of strings. -/
def insertStr (r : String) : List String → List String
  | [] => [r]
  | x :: xs => if strLe x r then x :: insertStr r xs else r :: x :: xs

/-- Lexicographic sort of strings, as np.unique uses inside
sklearn LabelEncoder.fit. -/
def sortStr (l : List String) : List String := l.foldr insertStr []

/-- Insert a record into a date-sorted list (used to model
df.sort_values("date"); the intra-date order produced by pandas is
unspecified, and no claim depends on it). -/
def insertByDate (r : SalesRecord) : List SalesRecord → List SalesRecord
  | [] => [r]
  | x :: xs => if x.date < r.date then x :: insertByDate r xs else r :: x :: xs

/-- Chronological sort of the raw records: df.sort_values("date"). -/
def sortByDate (l : List SalesRecord) : List SalesRecord :=
  l.foldr insertByDate []

/-- Trailing n elements of a list: pandas Series.tail(n). -/
def tailN (n : Nat) (xs : List α) : List α := xs.drop (xs.length - n)

/-! ### Numeric helpers: means, variances, Python rounding -/

/-- Arithmetic mean of a list of rationals (pandas Series.mean on a nonempty
series). -/
def listMean (xs : List ℚ) : ℚ := xs.sum / (xs.length : ℚ)

/-- Population variance, as np.var (ddof = 0): used for the confidence
heuristic at app.py line 453. -/
def popVar (xs : List ℚ) : ℚ :=
  (xs.map (fun x => (x - listMean xs) ^ 2)).sum / (xs.length : ℚ)

/-- Sample variance, divisor N−1, as torch.std (unbiased) squares to:
used by the RevIN statistics at app.py lines 351 and 425. -/
def sampleVar (xs : List ℚ) : ℚ :=
  (xs.map (fun x => (x - listMean xs) ^ 2)).sum / ((xs.length : ℚ) - 1)

/-- Python int() truncation toward zero. -/
def pyTrunc (q : ℚ) : ℤ := if 0 ≤ q then ⌊q⌋ else -⌊-q⌋

/-- Python round-half-to-even on an exact rational (float representation
artifacts of binary doubles are not modelled; no claim depends on tie
behaviour). -/
def pyRound (q : ℚ) : ℤ :=
  if q - ⌊q⌋ < 1 / 2 then ⌊q⌋
  else if 1 / 2 < q - ⌊q⌋ then ⌊q⌋ + 1
  else if ⌊q⌋ % 2 = 0 then ⌊q⌋ else ⌊q⌋ + 1

/-- round(x, 0) as a rational value. -/
def pyRound0 (q : ℚ) : ℚ := (pyRound q : ℚ)

/-- round(x, 1) as a rational value. -/
def pyRound1 (q : ℚ) : ℚ := (pyRound (10 * q) : ℚ) / 10

/-- round(x, 2) as a rational value. -/
def pyRound2 (q : ℚ) : ℚ := (pyRound (100 * q) : ℚ) / 100

/-! ### RevIN (instance normalization), app.py lines 349-359 and 421-442.
The code computes std = torch.std(window) + 1e-5 and then divides by it;
denormalization multiplies by the same quantity and adds the mean back. -/

/-- Normalize one target value with the context window statistics:
(x − mean) / (std + 1e-5), app.py lines 355 and 429. -/
def revinNormalize (x mean std : ℚ) : ℚ := (x - mean) / (std + 1 / 100000)

/-- Denormalize one model output with the same statistics:
y * (std + 1e-5) + mean, app.py lines 359 and 442. -/
def revinDenormalize (y mean std : ℚ) : ℚ := y * (std + 1 / 100000) + mean

/-! ### Window builder, app.py lines 303-317 (SalesPredictor._train_patchtst).
For a per-item chronological sequence of feature rows, emit the supervised
(context, horizon-targets) pairs.  The `continue` guard for short items is the
first branch; the loop bound is range(len − L − H + 1). -/

/-- Training pairs for one item: inputs are L consecutive rows, labels the
first numTargets columns of the following H rows. -/
def buildWindows (vals : List (List ℚ)) (L H : Nat) :
    List (List (List ℚ) × List (List ℚ)) :=
  if vals.length < L + H then []
  else
    (List.range (vals.length - L - H + 1)).map fun i =>
      ((vals.drop i).take L,
       ((vals.drop (i + L)).take H).map (fun r => r.take numTargets))

/-! ### Label encoding, app.py lines 226-246 (_process_features).
Training fits one sklearn LabelEncoder per categorical column (sorted distinct
classes, codes = sorted positions).  Inference replaces an unseen value by the
fallback `list(set(le.classes_))[0]`; the set-iteration order of that Python
expression is run-dependent (string hash randomization), so the embedding
passes the enumeration order explicitly. -/

/-- LabelEncoder.fit: sorted distinct classes. -/
def fitEncoder (vals : List String) : List String := sortStr (uniqAux [] vals)

/-- LabelEncoder.transform of one value: its index in the sorted class list. -/
def leTransform (classes : List String) (v : String) : Nat :=
  classes.findIdx (· = v)

/-- Inference-time encoding of one categorical value (app.py lines 237-244):
values outside the trained classes are replaced by the head of the run's
enumeration of set(le.classes_) before transforming. -/
def inferEncodeCat (classes order : List String) (v : String) : Nat :=
  if v ∈ classes then leTransform classes v
  else leTransform classes (order.headD "")

/-- The four trained per-column class tables (self.label_encoders). -/
structure Encoders where
  weather : List String
  holidays : List String
  festivals : List String
  events : List String
deriving DecidableEq

/-- Fit all four categorical encoders over the training rows. -/
def fitEncoders (rows : List SalesRecord) : Encoders :=
  { weather := fitEncoder (rows.map (·.weather_condition)),
    holidays := fitEncoder (rows.map (·.holidays_list)),
    festivals := fitEncoder (rows.map (·.festivals)),
    events := fitEncoder (rows.map (·.local_events)) }

/-- Training-time feature row in REQUIRED_COLUMNS order. -/
def featureRowTrain (E : Encoders) (r : SalesRecord) : List ℚ :=
  [r.sales_amount, r.sales_quantity,
   (leTransform E.weather r.weather_condition : ℚ),
   r.temperature, r.fuel_price, (r.has_offers : ℚ), r.offer_amount,
   (r.is_holiday : ℚ),
   (leTransform E.holidays r.holidays_list : ℚ),
   (leTransform E.festivals r.festivals : ℚ),
   (leTransform E.events r.local_events : ℚ)]

/-- Inference-time feature row: unseen categoricals fall back per
`inferEncodeCat`; `ord` holds the run's set-enumeration order per column. -/
def featureRowInfer (E ord : Encoders) (r : SalesRecord) : List ℚ :=
  [r.sales_amount, r.sales_quantity,
   (inferEncodeCat E.weather ord.weather r.weather_condition : ℚ),
   r.temperature, r.fuel_price, (r.has_offers : ℚ), r.offer_amount,
   (r.is_holiday : ℚ),
   (inferEncodeCat E.holidays ord.holidays r.holidays_list : ℚ),
   (inferEncodeCat E.festivals ord.festivals r.festivals : ℚ),
   (inferEncodeCat E.events ord.events r.local_events : ℚ)]

/-! ### The predictor (class SalesPredictor), app.py lines 197-507 -/

/-- Per-item naive statistics: trailing-7 means of amount and quantity
(app.py lines 276-279). -/
structure NaiveStat where
  amount_avg : ℚ
  qty_avg : ℚ
deriving DecidableEq

/-- The batched network step used by the autoregressive loop: from the batch
of per-item context windows to the denormalized first forecast step, one
(sales_amount, sales_quantity) pair per batch element (app.py lines 418-443,
abstracted over the trained weights and the floating-point std). -/
def NetFn : Type := List (List (List ℚ)) → List (ℚ × ℚ)

/-- The value of self.model: Python None, the naive per-item dict, or a
trained PatchTST network. -/
inductive ModelPayload where
  | noneModel : ModelPayload
  | naive (stats : List (String × NaiveStat)) : ModelPayload
  | net (f : NetFn) : ModelPayload

/-- The persistent state of a SalesPredictor. -/
structure Predictor where
  business_id : String
  model_type : String
  payload : ModelPayload
  label_encoders : Encoders
  last_context : List (String × List (List ℚ))
  item_ids : List String
  num_features : Nat

/-- Association-list lookup (Python dict indexing over unique keys). -/
def lookupKey : List (String × α) → String → Option α
  | [], _ => none
  | q :: rest, k => if q.1 = k then some q.2 else lookupKey rest k

/-- Remove a key (os.remove of one artifact / dict overwrite helper). -/
def eraseKey : List (String × α) → String → List (String × α)
  | [], _ => []
  | q :: rest, k => if q.1 = k then eraseKey rest k else q :: eraseKey rest k

/-- Insert-or-overwrite a key. -/
def insertKey (l : List (String × α)) (k : String) (v : α) : List (String × α) :=
  (k, v) :: eraseKey l k

/-- Python dict.get(item, {"amount_avg": 0, "qty_avg": 0}) at app.py
line 376. -/
def pyDictGet (stats : List (String × NaiveStat)) (it : String) : NaiveStat :=
  match lookupKey stats it with
  | some s => s
  | none => { amount_avg := 0, qty_avg := 0 }

/-- Naive statistics of one item over the date-sorted dataframe (app.py
lines 273-279): means of the trailing 7 observations. -/
def naiveStat (df : List SalesRecord) (it : String) : NaiveStat :=
  { amount_avg :=
      listMean (tailN 7 ((df.filter (fun r => r.product_id = it)).map
        (·.sales_amount))),
    qty_avg :=
      listMean (tailN 7 ((df.filter (fun r => r.product_id = it)).map
        (·.sales_quantity))) }

/-- Outcome of the strategy-selection part of SalesPredictor.train together
with _train_patchtst (app.py lines 268-283 and 298-331): the model tag, the
model value and num_features.  Note that when windowing yields zero pairs the
code sets model_type = "naive" but RETURNS WITHOUT BUILDING the per-item
averages dict, leaving self.model = None (lines 319-321). -/
structure TrainCore where
  mt : String
  pl : ModelPayload
  nf : Nat

/-- Strategy selection and model fitting.  `netT` abstracts the gradient
descent of _train_patchtst (lines 323-369). -/
def trainCore (netT : List (List (List ℚ) × List (List ℚ)) → NetFn)
    (df : List SalesRecord) (items : List String) (E : Encoders) : TrainCore :=
  if df.length < minSamplesForDL then
    { mt := "naive",
      pl := .naive (items.map fun it => (it, naiveStat df it)),
      nf := 0 }
  else
    let pairs := (items.map fun it =>
      buildWindows ((df.filter (fun r => r.product_id = it)).map
        (featureRowTrain E)) contextWindow forecastHorizon).flatten
    if pairs.isEmpty then
      { mt := "naive", pl := .noneModel, nf := numRequiredColumns }
    else
      { mt := "patchtst", pl := .net (netT pairs), nf := numRequiredColumns }

/-- SalesPredictor.train (app.py lines 255-296): sort by date, pick the
strategy, fit the encoders, and store the per-item trailing context
(tail(context_window) of the processed rows). -/
def train (netT : List (List (List ℚ) × List (List ℚ)) → NetFn)
    (bid : String) (raw : List SalesRecord) : Predictor :=
  let df := sortByDate raw
  let items := uniqAux [] (df.map (·.product_id))
  let E := fitEncoders df
  let core := trainCore netT df items E
  { business_id := bid,
    model_type := core.mt,
    payload := core.pl,
    label_encoders := E,
    last_context := items.map fun it =>
      (it, tailN contextWindow ((df.filter (fun r => r.product_id = it)).map
        (featureRowTrain E))),
    item_ids := items,
    num_features := core.nf }

/-! ### Autoregressive prediction, app.py lines 371-472 -/

/-- One reported prediction for one item on one day. -/
structure PredEntry where
  sales_amount : ℚ
  sales_quantity : ℤ
  confidence_score : ℚ
deriving DecidableEq

/-- The all-zero prediction entry (the placeholder value used when indexing
misses; Python would raise instead, but no reachable path indexes past the
forecast bounds). -/
def zeroPredEntry : PredEntry :=
  { sales_amount := 0, sales_quantity := 0, confidence_score := 0 }

/-- Seed context for one item (app.py lines 399-410): all-zero when absent,
front-zero-padded to the context window length when shorter. -/
def seedCtx (nf : Nat) (ctx? : Option (List (List ℚ))) : List (List ℚ) :=
  match ctx? with
  | none => List.replicate contextWindow (List.replicate nf 0)
  | some ctx =>
    if ctx.length < contextWindow then
      List.replicate (contextWindow - ctx.length) (List.replicate nf 0) ++ ctx
    else ctx

/-- One day of the autoregressive loop (app.py lines 413-470): run the
network on the batch of contexts, clamp and round each item's first-step
output, compute the inverse-variance confidence, and roll each context
forward by dropping the oldest row and appending the predicted row. -/
def autoStep (f : NetFn) (frow : List ℚ) (ctxs : List (List (List ℚ))) :
    List (PredEntry × List (List ℚ)) :=
  let preds := f ctxs
  (List.range ctxs.length).map fun idx =>
    let ctx := ctxs.getD idx []
    let raw := preds.getD idx (0, 0)
    let pred_amt : ℚ := max 0 (pyRound2 raw.1)
    let pred_qty : ℚ := max 0 (pyRound0 raw.2)
    let v := popVar (ctx.map (fun row => row.getD 0 0))
    let conf := pyRound1 (max 0 (min 100 (100 - v / 100)))
    let newRow := (frow.set 0 pred_amt).set 1 pred_qty
    ({ sales_amount := pred_amt, sales_quantity := pyTrunc pred_qty,
       confidence_score := conf },
     ctx.drop 1 ++ [newRow])

/-- The full autoregressive loop over the future feature rows, returning the
per-item prediction lists (in requested-item order) and the final contexts. -/
def autoLoop (f : NetFn) (rows : List (List ℚ))
    (ctxs : List (List (List ℚ))) :
    List (List PredEntry) × List (List (List ℚ)) :=
  match rows with
  | [] => (ctxs.map fun _ => [], ctxs)
  | r :: rest =>
    let step := autoStep f r ctxs
    let next := autoLoop f rest (step.map Prod.snd)
    (List.zipWith (fun pe l => pe :: l) (step.map Prod.fst) next.1, next.2)

/-- SalesPredictor.predict_step_by_step (app.py lines 371-472).  Raising
Python code is modelled with Except: a naive-tagged predictor whose model is
not the naive dict raises AttributeError on the first item (line 376), and a
patchtst-tagged predictor without an attached network raises on the first
day (line 432). -/
def predictStepByStep (ord : Encoders) (p : Predictor)
    (future : List SalesRecord) (reqItems : List String) :
    Except String (List (String × List PredEntry)) :=
  if p.model_type = "naive" then
    match p.payload with
    | .naive stats =>
      .ok (reqItems.map fun it =>
        let s := pyDictGet stats it
        (it, List.replicate future.length
          { sales_amount := s.amount_avg,
            sales_quantity := pyTrunc s.qty_avg,
            confidence_score := 50 }))
    | _ =>
      if reqItems = [] then .ok []
      else .error "AttributeError: NoneType object has no attribute get"
  else if p.model_type = "patchtst" then
    match p.payload with
    | .net f =>
      let futureRows := future.map (featureRowInfer p.label_encoders ord)
      let ctxs := reqItems.map fun it =>
        seedCtx p.num_features (lookupKey p.last_context it)
      .ok (List.zip reqItems (autoLoop f futureRows ctxs).1)
    | _ =>
      if future = [] then .ok (reqItems.map fun it => (it, []))
      else .error "TypeError: NoneType object is not callable"
  else .ok (reqItems.map fun it => (it, []))

/-- The response formatting of /predict_custom (app.py lines 932-945): one
entry per future day, holding one prediction per requested item. -/
def formatForecast (fc : List (String × List PredEntry))
    (future : List SalesRecord) (items : List String) :
    List (List (String × PredEntry)) :=
  (List.range future.length).map fun i =>
    items.map fun it =>
      (it, ((lookupKey fc it).getD []).getD i zeroPredEntry)

/-! ### Persistence layer, app.py lines 474-507, and the model store -/

/-- The two-artifact model store: <bid>.pkl holds the pickled predictor
(model stripped), <bid>.pth holds the weights of a learned model. -/
structure Store where
  pkls : List (String × Predictor)
  pths : List (String × NetFn)

/-- The empty model store. -/
def emptyStore : Store := { pkls := [], pths := [] }

/-- The pickled form of a predictor: self.model is set to None before
pickle.dump (app.py lines 476-482). -/
def pklOf (p : Predictor) : Predictor := { p with payload := .noneModel }

/-- SalesPredictor.save (app.py lines 474-490).  The code runs
self.model.state_dict() whenever self.model is not None — so saving a naive
predictor, whose model is a plain dict, raises AttributeError BEFORE anything
is written.  A predictor with model None writes only the pkl; a learned
predictor writes the pkl (model stripped) and then the weights artifact. -/
def saveP (st : Store) (p : Predictor) : Except String Store :=
  match p.payload with
  | .naive _ => .error "AttributeError: dict object has no attribute state_dict"
  | .noneModel =>
    .ok { st with pkls := insertKey st.pkls p.business_id (pklOf p) }
  | .net f =>
    .ok { pkls := insertKey st.pkls p.business_id (pklOf p),
          pths := insertKey st.pths p.business_id f }

/-- SalesPredictor.load (app.py lines 492-507): None when no pkl exists;
otherwise the pickled predictor, with the network re-attached when a weights
artifact exists and the model type is patchtst. -/
def loadP (st : Store) (bid : String) : Option Predictor :=
  match lookupKey st.pkls bid with
  | none => none
  | some pk =>
    match lookupKey st.pths bid with
    | some f =>
      if pk.model_type = "patchtst" then some { pk with payload := .net f }
      else some pk
    | none => some pk

/-! ### The /retrain handler, app.py lines 551-763 -/

/-- The metrics object of the /retrain response. -/
structure MetricsR where
  mae : ℚ
  mse : ℚ
  rmse : ℚ
  mape : ℚ
  r2_score : ℚ
  explained_variance : ℚ
  accuracy : ℚ
deriving DecidableEq

/-- The all-zero metrics reported when validation is skipped
(app.py lines 702-713 and 725-736). -/
def zeroMetrics : MetricsR :=
  { mae := 0, mse := 0, rmse := 0, mape := 0, r2_score := 0,
    explained_variance := 0, accuracy := 0 }

/-- The 80% split index int(n_total * 0.8) (app.py line 662; exact for the
realistic range of n, where the binary-double product never truncates past an
integer boundary). -/
def splitIdx (n : Nat) : Nat := 4 * n / 5

/-- The structured /retrain response (the model_version string of the code,
a timestamp, is not modelled). -/
structure RetrainResp where
  status : Nat
  model_type : Option String := none
  metrics : Option MetricsR := none
  split_ratio : Option String := none

/-- The /retrain handler (app.py lines 635-763): validate, delete both
artifacts of the business, run the 80/20 validation when the split is
meaningful, train the final model on everything and save it; any exception
yields a 500 response.  `valMetrics` abstracts the floating-point metrics of
calculate_metrics computed in the 80/20 branch (no claim depends on their
values); `netT` and `ord` are the usual network-training and set-order
abstractions. -/
def eraseBusiness (st : Store) (bid : String) : Store :=
  { pkls := eraseKey st.pkls bid, pths := eraseKey st.pths bid }

/-- The validation phase of /retrain (app.py lines 660-743): when the 80/20
split is meaningful (split index above the context window and more than one
test row), train a throwaway predictor on the 80% slice and predict the test
dates, producing the metrics and the "80/20" tag; otherwise skip validation
and report the all-zero metrics with the insufficient-data tag.  The
exception a crashing validation prediction raises is propagated. -/
def retrainValidationPhase (netT : List (List (List ℚ) × List (List ℚ)) → NetFn)
    (valMetrics : MetricsR) (ord : Encoders) (business_id : String)
    (df : List SalesRecord) : Except String (MetricsR × String) :=
  if contextWindow < splitIdx df.length ∧
      1 < df.length - splitIdx df.length then
    match predictStepByStep ord
        (train netT (business_id ++ "_val") (df.take (splitIdx df.length)))
        ((uniqAux [] ((df.drop (splitIdx df.length)).map (·.date))).map
          mkFuture)
        (uniqAux [] ((df.drop (splitIdx df.length)).map (·.product_id))) with
    | .error e => .error e
    | .ok _ => .ok (valMetrics, "80/20")
  else .ok (zeroMetrics, "100/0 (Insufficient Data)")

/-- Final training and save of /retrain (app.py lines 745-761): save the
freshly trained production model; an exception during save yields 500. -/
def retrainFinish (st1 : Store) (p : Predictor) (m : MetricsR) (r : String) :
    Store × RetrainResp :=
  match saveP st1 p with
  | .error _ => (st1, { status := 500 })
  | .ok st2 =>
    (st2, { status := 200, model_type := some p.model_type,
            metrics := some m, split_ratio := some r })

/-- Dispatch on the validation-phase outcome: a propagated exception yields
500 (app.py lines 762-763), otherwise final training proceeds. -/
def retrainDispatch (st1 : Store) (p : Predictor) :
    Except String (MetricsR × String) → Store × RetrainResp
  | .error _ => (st1, { status := 500 })
  | .ok (m, r) => retrainFinish st1 p m r

def retrain (netT : List (List (List ℚ) × List (List ℚ)) → NetFn)
    (valMetrics : MetricsR) (ord : Encoders) (st : Store)
    (business_id : String) (raw : List SalesRecord) : Store × RetrainResp :=
  if business_id = "" ∨ raw = [] then (st, { status := 400 })
  else
    retrainDispatch (eraseBusiness st business_id)
      (train netT business_id raw)
      (retrainValidationPhase netT valMetrics ord business_id
        (sortByDate raw))

/-- The future-day range of /predict (app.py lines 818-826):
(end − start).days + 1 dummy entries. -/
def dateRange (b e : ℤ) : List ℤ :=
  (List.range (e - b + 1).toNat).map fun i => b + (i : ℤ)

/-- The status code of the /predict handler (app.py lines 812-847): 404 when
no model exists for the business, 500 when prediction raises, 200 otherwise. -/
def predictEndpoint (ord : Encoders) (st : Store) (bid : String)
    (b e : ℤ) (items : List String) : Nat :=
  match loadP st bid with
  | none => 404
  | some p =>
    match predictStepByStep ord p ((dateRange b e).map mkFuture) items with
    | .error _ => 500
    | .ok _ => 200

/-! ### Basic lemmas about the helpers -/

lemma pyRound_cases (q : ℚ) : pyRound q = ⌊q⌋ ∨ pyRound q = ⌊q⌋ + 1 := by
  unfold pyRound
  split_ifs <;> simp

lemma pyRound_nonneg (q : ℚ) (h : 0 ≤ q) : 0 ≤ pyRound q := by
  have hf : (0 : ℤ) ≤ ⌊q⌋ := Int.floor_nonneg.mpr h
  rcases pyRound_cases q with h1 | h1 <;> omega

lemma pyRound_le (q : ℚ) (n : ℤ) (h : q ≤ (n : ℚ)) : pyRound q ≤ n := by
  have hfl : ⌊q⌋ ≤ n := by
    have := Int.floor_le_floor h
    simpa using this
  unfold pyRound
  split_ifs with h1 h2 h3
  · exact hfl
  · have hq : (⌊q⌋ : ℚ) ≤ q - 1 / 2 := by linarith
    have : (⌊q⌋ : ℚ) < (n : ℚ) := by linarith
    have : ⌊q⌋ < n := by exact_mod_cast this
    omega
  · exact hfl
  · have hq : (⌊q⌋ : ℚ) ≤ q - 1 / 2 := by linarith
    have : (⌊q⌋ : ℚ) < (n : ℚ) := by linarith
    have : ⌊q⌋ < n := by exact_mod_cast this
    omega

lemma pyTrunc_nonneg (q : ℚ) (h : 0 ≤ q) : 0 ≤ pyTrunc q := by
  unfold pyTrunc
  rw [if_pos h]
  exact Int.floor_nonneg.mpr h

lemma pyRound1_bounds (c : ℚ) (h0 : 0 ≤ c) (h1 : c ≤ 100) :
    0 ≤ pyRound1 c ∧ pyRound1 c ≤ 100 := by
  have hz0 : 0 ≤ pyRound (10 * c) := pyRound_nonneg _ (by linarith)
  have hz1 : pyRound (10 * c) ≤ 1000 := by
    apply pyRound_le
    push_cast
    linarith
  unfold pyRound1
  constructor
  · have : (0 : ℚ) ≤ (pyRound (10 * c) : ℚ) := by exact_mod_cast hz0
    linarith
  · have : (pyRound (10 * c) : ℚ) ≤ 1000 := by exact_mod_cast hz1
    linarith

lemma getD_map_range {β : Type} (n i : Nat) (g : Nat → β) (d : β)
    (hi : i < n) : ((List.range n).map g).getD i d = g i := by
  rw [List.getD_eq_getElem?_getD, List.getElem?_map, List.getElem?_range hi]
  rfl

/-- C3: for an item with N ≥ L+H = 67 chronologically sorted processed rows,
window construction emits exactly N−L−H+1 pairs, pair i reading rows
[i, i+L) as input and the two target columns of rows [i+L, i+L+H) as label;
an item with N < 67 rows contributes zero pairs (and no error). -/
theorem c3_window_builder_pairs (vals : List (List ℚ)) :
    (67 ≤ vals.length →
      (buildWindows vals 60 7).length = vals.length - 60 - 7 + 1 ∧
      (∀ i j : Nat, i < vals.length - 60 - 7 + 1 → j < 60 →
        ((buildWindows vals 60 7).getD i ([], [])).1.getD j [] =
          vals.getD (i + j) []) ∧
      (∀ i j : Nat, i < vals.length - 60 - 7 + 1 → j < 7 →
        ((buildWindows vals 60 7).getD i ([], [])).2.getD j [] =
          (vals.getD (i + 60 + j) []).take 2)) ∧
    (vals.length < 67 → buildWindows vals 60 7 = []) := by
  constructor
  · intro hN
    have hnot : ¬ vals.length < 60 + 7 := by omega
    have hbw : buildWindows vals 60 7 =
        (List.range (vals.length - 60 - 7 + 1)).map fun i =>
          ((vals.drop i).take 60,
           ((vals.drop (i + 60)).take 7).map (fun r => r.take numTargets)) := by
      unfold buildWindows
      rw [if_neg hnot]
    refine ⟨by rw [hbw]; simp, ?_, ?_⟩
    · intro i j hi hj
      rw [hbw, getD_map_range _ _ _ _ hi]
      rw [List.getD_eq_getElem?_getD, List.getElem?_take_of_lt hj,
        List.getElem?_drop, List.getD_eq_getElem?_getD]
    · intro i j hi hj
      rw [hbw, getD_map_range _ _ _ _ hi]
      rw [List.getD_eq_getElem?_getD, List.getElem?_map,
        List.getElem?_take_of_lt hj, List.getElem?_drop,
        List.getD_eq_getElem?_getD]
      cases vals[i + 60 + j]? with
      | none => rfl
      | some r => rfl
  · intro hN
    unfold buildWindows
    rw [if_pos (by omega)]

/-- Witness for C3 at concrete inputs: 67 rows give exactly one pair whose
first input row is row 0 and whose first label row is the two target columns
of row 60; two rows give no pair. -/
theorem c3_window_builder_pairs_witness :
    ((buildWindows (List.replicate 67 [1, 2, 3]) 60 7).length =
      67 - 60 - 7 + 1 ∧
     ((buildWindows (List.replicate 67 [1, 2, 3]) 60 7).getD 0
        ([], [])).1.getD 0 [] =
       (List.replicate 67 ([1, 2, 3] : List ℚ)).getD 0 [] ∧
     ((buildWindows (List.replicate 67 [1, 2, 3]) 60 7).getD 0
        ([], [])).2.getD 0 [] =
       ((List.replicate 67 ([1, 2, 3] : List ℚ)).getD 60 []).take 2) ∧
    buildWindows [[1], [2]] 60 7 = [] := by
  have h67 : (67 : Nat) ≤ (List.replicate 67 ([1, 2, 3] : List ℚ)).length := by
    simp
  have h1 := (c3_window_builder_pairs (List.replicate 67 [1, 2, 3])).1 h67
  have h2 := (c3_window_builder_pairs [[1], [2]]).2 (by simp)
  refine ⟨⟨?_, ?_, ?_⟩, h2⟩
  · rw [h1.1]; simp
  · exact h1.2.1 0 0 (by simp) (by omega)
  · exact h1.2.2 0 0 (by simp) (by omega)

/-- C4: RevIN round-trip — for a context window whose target column has
nonzero (sample) variance, with the window mean and any standard deviation s
(s² = sampleVar, s ≥ 0, as torch.std produces), denormalizing with the
epsilon-floored std inverts normalization exactly:
((x − mean)/(std + 1e-5)) * (std + 1e-5) + mean = x. -/
theorem c4_revin_roundtrip (w : List ℚ) (s x : ℚ)
    (hs : 0 ≤ s) (hsq : s * s = sampleVar w) (hvar : sampleVar w ≠ 0) :
    revinDenormalize (revinNormalize x (listMean w) s) (listMean w) s = x := by
  have hpos : (0 : ℚ) < s + 1 / 100000 := by linarith
  unfold revinNormalize revinDenormalize
  rw [div_mul_cancel₀ _ (ne_of_gt hpos)]
  ring

/-- Witness for C4 at the window [0, 1, 2] (sample variance 1, std 1) and
x = 5. -/
theorem c4_revin_roundtrip_witness :
    (0 : ℚ) ≤ 1 ∧ (1 : ℚ) * 1 = sampleVar [0, 1, 2] ∧
    sampleVar ([0, 1, 2] : List ℚ) ≠ 0 ∧
    revinDenormalize (revinNormalize 5 (listMean [0, 1, 2]) 1)
      (listMean [0, 1, 2]) 1 = 5 := by
  have h1 : (1 : ℚ) * 1 = sampleVar [0, 1, 2] := by
    norm_num [sampleVar, listMean]
  have h2 : sampleVar ([0, 1, 2] : List ℚ) ≠ 0 := by
    norm_num [sampleVar, listMean]
  exact ⟨by norm_num, h1, h2,
    c4_revin_roundtrip [0, 1, 2] 1 5 (by norm_num) h1 h2⟩

/-! ### C7: unseen-category fallback.  The fallback class is
list(set(le.classes_))[0], whose value depends on the run's set-iteration
order (Python string-hash randomization): two admissible enumeration orders
of the same trained class set yield different fallback codes, so the code is
NOT the same on every run of the program.  Within one run (one enumeration
order) every unseen value of a column resolves to the same valid code and
nothing is raised. -/

/-- Counterexample to C7 as stated: with the trained weather classes
{"Rainy", "Sunny"}, the two set-enumeration orders (both permutations of the
class set, hence both possible under hash randomization) resolve the unseen
value "Foggy" to DIFFERENT codes, refuting run-independence of the fallback
code. -/
theorem c7_fallback_not_run_deterministic :
    List.Perm ["Rainy", "Sunny"] (fitEncoder ["Sunny", "Rainy"]) ∧
    List.Perm ["Sunny", "Rainy"] (fitEncoder ["Sunny", "Rainy"]) ∧
    inferEncodeCat (fitEncoder ["Sunny", "Rainy"]) ["Rainy", "Sunny"]
        "Foggy" ≠
      inferEncodeCat (fitEncoder ["Sunny", "Rainy"]) ["Sunny", "Rainy"]
        "Foggy" := by
  refine ⟨?_, ?_, ?_⟩ <;> decide

/-- C7 amended: for every trained class table and every fixed run
(set-enumeration order, a nonempty permutation of the classes), feature
processing of an unseen categorical value never raises and resolves every
unseen value of the column to one and the same code, a valid index of the
trained encoder table; the code may differ between runs. -/
theorem c7_fallback_single_code_per_run (classes order : List String)
    (v w : String) (hperm : List.Perm order classes) (hne : order ≠ [])
    (hv : v ∉ classes) (hw : w ∉ classes) :
    inferEncodeCat classes order v = inferEncodeCat classes order w ∧
    inferEncodeCat classes order v < classes.length := by
  have hfb : order.headD "" ∈ classes := by
    cases order with
    | nil => exact absurd rfl hne
    | cons x rest =>
      exact hperm.mem_iff.mp (by simp)
  constructor
  · unfold inferEncodeCat
    rw [if_neg hv, if_neg hw]
  · unfold inferEncodeCat
    rw [if_neg hv]
    exact List.findIdx_lt_length_of_exists ⟨order.headD "", hfb, by simp⟩

/-- Witness for the amended C7: weather classes ["Rainy", "Sunny"], one run
order, two unseen values. -/
theorem c7_fallback_single_code_per_run_witness :
    inferEncodeCat ["Rainy", "Sunny"] ["Sunny", "Rainy"] "Foggy" =
      inferEncodeCat ["Rainy", "Sunny"] ["Sunny", "Rainy"] "Hazy" ∧
    inferEncodeCat ["Rainy", "Sunny"] ["Sunny", "Rainy"] "Foggy" <
      (["Rainy", "Sunny"] : List String).length :=
  c7_fallback_single_code_per_run ["Rainy", "Sunny"] ["Sunny", "Rainy"]
    "Foggy" "Hazy" (by decide) (by decide) (by decide) (by decide)

/-! ### Concrete fixtures used by evaluation theorems -/

/-- A trivial trained network (constant zero forecast), standing in for any
gradient-descent outcome where one is needed concretely. -/
def netT0 : List (List (List ℚ) × List (List ℚ)) → NetFn :=
  fun _ => fun b => b.map fun _ => (0, 0)

/-- A concrete set-enumeration order bundle. -/
def ordE0 : Encoders :=
  { weather := ["Sunny"], holidays := ["[]"], festivals := ["[]"],
    events := ["[]"] }

/-- One fully valid training row for item A on day d. -/
def mkTrainRec (d : ℤ) : SalesRecord :=
  { date := d, product_id := "A", sales_amount := 5, sales_quantity := 1,
    weather_condition := "Sunny", temperature := 20, fuel_price := 4,
    has_offers := 0, offer_amount := 0, is_holiday := 0,
    holidays_list := "[]", festivals := "[]", local_events := "[]" }

/-- Ten valid rows (one item, ten days): the cold-start scenario of the
spec (retrain with 10 total rows). -/
def raw10 : List SalesRecord := (List.range 10).map fun i => mkTrainRec i

/-- Forty valid rows of a single item: at the deep-learning threshold but
below the 67 rows any window needs. -/
def raw40 : List SalesRecord := (List.range 40).map fun i => mkTrainRec i

/-- Seventy-seven valid rows of a single item: the 80/20 split condition
holds (split index 61 > 60, test rows 16 ≥ 2) but the 61-row validation
slice yields zero windows. -/
def raw77 : List SalesRecord := (List.range 77).map fun i => mkTrainRec i

/-- C1 (code bug): a /retrain request with a non-empty business_id and ten
valid rows — the spec's own cold-start scenario — does NOT return 200: the
naive branch stores a plain dict in self.model, and save() then calls
self.model.state_dict() (app.py lines 476-477), raising AttributeError, so
the handler answers 500.  This theorem evaluates the embedded handler at the
failing input. -/
theorem c1_retrain_small_data_returns_500 :
    (retrain netT0 zeroMetrics ordE0 emptyStore "biz_001" raw10).2.status =
      500 ∧
    (retrain netT0 zeroMetrics ordE0 emptyStore "biz_001" raw10).2.status ≠
      200 := by
  have h5 : (retrain netT0 zeroMetrics ordE0 emptyStore "biz_001"
      raw10).2.status = 500 := rfl
  exact ⟨h5, by rw [h5]; decide⟩

/-- C6 (code bug): forty rows of one item pass the ≥ 40 threshold, windowing
yields zero pairs, and _train_patchtst then sets model_type = "naive" but
returns with self.model still None (app.py lines 319-321): the resulting
model does NOT behave as the naive fallback — prediction raises
AttributeError instead of returning trailing-7 averages. -/
theorem c6_zero_windows_leaves_model_none :
    (train netT0 "biz_001" raw40).model_type = "naive" ∧
    (train netT0 "biz_001" raw40).payload = ModelPayload.noneModel ∧
    predictStepByStep ordE0 (train netT0 "biz_001" raw40)
        [mkFuture 100] ["A"] =
      .error "AttributeError: NoneType object has no attribute get" := by
  refine ⟨rfl, rfl, rfl⟩

/-- C8 (code bug): saving a trained naive model raises AttributeError before
anything is written (self.model is the naive dict, and save() calls
state_dict() on it, app.py lines 476-477), so the save-then-load round trip
of the claim can never happen for a naive model. -/
theorem c8_naive_model_save_raises :
    (train netT0 "bizX" raw10).model_type = "naive" ∧
    (∃ stats, (train netT0 "bizX" raw10).payload =
      ModelPayload.naive stats) ∧
    saveP emptyStore (train netT0 "bizX" raw10) =
      .error "AttributeError: dict object has no attribute state_dict" := by
  exact ⟨rfl, ⟨_, rfl⟩, rfl⟩

/-- Counterexample to C5 as stated: a valid /retrain request with 77 rows of
one item satisfies the claim's split condition (split index 61 > 60 and 16
test rows ≥ 2), yet the response carries NO training_info at all — the
validation predictor falls into the zero-window naive path with model None,
prediction raises, and the handler answers 500 (lines 670-678 and 762-763).
So split_ratio does not equal "80/20" although the condition holds. -/
theorem c5_split_condition_holds_but_500 :
    (60 < splitIdx raw77.length ∧ 1 < raw77.length - splitIdx raw77.length) ∧
    (retrain netT0 zeroMetrics ordE0 emptyStore "biz_001" raw77).2.status =
      500 ∧
    (retrain netT0 zeroMetrics ordE0 emptyStore "biz_001" raw77).2.split_ratio
      = none := by
  refine ⟨by decide, rfl, rfl⟩

lemma length_insertByDate (r : SalesRecord) (l : List SalesRecord) :
    (insertByDate r l).length = l.length + 1 := by
  induction l with
  | nil => rfl
  | cons x xs ih =>
    unfold insertByDate
    split_ifs
    · simp [ih]
    · simp

lemma length_sortByDate (l : List SalesRecord) :
    (sortByDate l).length = l.length := by
  unfold sortByDate
  induction l with
  | nil => rfl
  | cons x xs ih => simp [List.foldr, length_insertByDate, ih]

lemma retrainValidationPhase_ok
    (netT : List (List (List ℚ) × List (List ℚ)) → NetFn)
    (vm : MetricsR) (ord : Encoders) (bid : String) (df : List SalesRecord)
    (m : MetricsR) (r : String)
    (h : retrainValidationPhase netT vm ord bid df = .ok (m, r)) :
    (contextWindow < splitIdx df.length ∧
        1 < df.length - splitIdx df.length → r = "80/20") ∧
    (¬(contextWindow < splitIdx df.length ∧
        1 < df.length - splitIdx df.length) →
      r = "100/0 (Insufficient Data)" ∧ m = zeroMetrics) := by
  unfold retrainValidationPhase at h
  by_cases hcond : contextWindow < splitIdx df.length ∧
      1 < df.length - splitIdx df.length
  · rw [if_pos hcond] at h
    refine ⟨fun _ => ?_, fun hn => absurd hcond hn⟩
    cases hp : predictStepByStep ord
        (train netT (bid ++ "_val") (df.take (splitIdx df.length)))
        ((uniqAux [] ((df.drop (splitIdx df.length)).map (·.date))).map
          mkFuture)
        (uniqAux [] ((df.drop (splitIdx df.length)).map (·.product_id))) with
    | error e =>
      rw [hp] at h
      exact absurd h (by simp)
    | ok fc =>
      rw [hp] at h
      simp only [Except.ok.injEq, Prod.mk.injEq] at h
      exact h.2.symm
  · rw [if_neg hcond] at h
    simp only [Except.ok.injEq, Prod.mk.injEq] at h
    exact ⟨fun hc => absurd hc hcond, fun _ => ⟨h.2.symm, h.1.symm⟩⟩

/-- C5 amended: among /retrain requests that do produce a training_info
(a 200 response), split_ratio is "80/20" exactly when the 80% split index
int(0.8·n_total) exceeds the context window length 60 and the test partition
has at least 2 rows, and in every other such case split_ratio is
"100/0 (Insufficient Data)" with all reported metrics 0.0.  (Requests that
fail validation, or crash during training or saving, return no training_info
at all — see the counterexample.) -/
theorem c5_split_ratio_amended
    (netT : List (List (List ℚ) × List (List ℚ)) → NetFn)
    (vm : MetricsR) (ord : Encoders) (st : Store) (bid : String)
    (raw : List SalesRecord)
    (h200 : (retrain netT vm ord st bid raw).2.status = 200) :
    ((retrain netT vm ord st bid raw).2.split_ratio = some "80/20" ↔
      (60 < splitIdx raw.length ∧ 1 < raw.length - splitIdx raw.length)) ∧
    (¬(60 < splitIdx raw.length ∧ 1 < raw.length - splitIdx raw.length) →
      (retrain netT vm ord st bid raw).2.split_ratio =
        some "100/0 (Insufficient Data)" ∧
      (retrain netT vm ord st bid raw).2.metrics = some zeroMetrics) := by
  by_cases hval : bid = "" ∨ raw = []
  · unfold retrain at h200
    rw [if_pos hval] at h200
    exact absurd (show (400 : Nat) = 200 from h200) (by decide)
  · unfold retrain at h200 ⊢
    rw [if_neg hval] at h200 ⊢
    cases hph : retrainValidationPhase netT vm ord bid (sortByDate raw) with
    | error e =>
      rw [hph] at h200
      exact absurd (show (500 : Nat) = 200 from h200) (by decide)
    | ok pr =>
      obtain ⟨m, r⟩ := pr
      rw [hph] at h200
      have hchar := retrainValidationPhase_ok netT vm ord bid
        (sortByDate raw) m r hph
      rw [length_sortByDate] at hchar
      simp only [contextWindow] at hchar
      simp only [retrainDispatch] at h200 ⊢
      unfold retrainFinish at h200 ⊢
      cases hsv : saveP (eraseBusiness st bid) (train netT bid raw) with
      | error e =>
        rw [hsv] at h200
        exact absurd (show (500 : Nat) = 200 from h200) (by decide)
      | ok st2 =>
        refine ⟨⟨fun hr => ?_, fun hc => ?_⟩, fun hn => ⟨?_, ?_⟩⟩
        · by_contra hn
          have hrr := (hchar.2 hn).1
          have hr2 : some r = some "80/20" := hr
          rw [hrr] at hr2
          exact absurd (Option.some.inj hr2) (by decide)
        · show (some r : Option String) = some "80/20"
          rw [hchar.1 hc]
        · show (some r : Option String) = some "100/0 (Insufficient Data)"
          rw [(hchar.2 hn).1]
        · show (some m : Option MetricsR) = some zeroMetrics
          rw [(hchar.2 hn).2]

/-- Witness for the amended C5: the 40-row single-item request returns 200
(the zero-window path leaves model None, which save accepts), with
split_ratio "100/0 (Insufficient Data)" and zero metrics. -/
theorem c5_split_ratio_amended_witness :
    ((retrain netT0 zeroMetrics ordE0 emptyStore "biz_001"
        raw40).2.split_ratio = some "80/20" ↔
      (60 < splitIdx raw40.length ∧
        1 < raw40.length - splitIdx raw40.length)) ∧
    (¬(60 < splitIdx raw40.length ∧
        1 < raw40.length - splitIdx raw40.length) →
      (retrain netT0 zeroMetrics ordE0 emptyStore "biz_001"
        raw40).2.split_ratio = some "100/0 (Insufficient Data)" ∧
      (retrain netT0 zeroMetrics ordE0 emptyStore "biz_001"
        raw40).2.metrics = some zeroMetrics) :=
  c5_split_ratio_amended netT0 zeroMetrics ordE0 emptyStore "biz_001" raw40
    (by rfl)

lemma lookupKey_eraseKey (l : List (String × α)) (k : String) :
    lookupKey (eraseKey l k) k = none := by
  induction l with
  | nil => rfl
  | cons q rest ih =>
    unfold eraseKey
    split_ifs with h
    · exact ih
    · unfold lookupKey
      rw [if_neg h]
      exact ih

lemma lookupKey_insertKey (l : List (String × α)) (k : String) (v : α) :
    lookupKey (insertKey l k v) k = some v := by
  unfold insertKey lookupKey
  rw [if_pos rfl]

lemma saveP_ok_pkl (st : Store) (p : Predictor) (st2 : Store)
    (h : saveP st p = .ok st2) :
    lookupKey st2.pkls p.business_id = some (pklOf p) := by
  unfold saveP at h
  cases hp : p.payload with
  | naive stats =>
    rw [hp] at h
    exact absurd h (by simp)
  | noneModel =>
    rw [hp] at h
    simp only [Except.ok.injEq] at h
    rw [← h]
    exact lookupKey_insertKey st.pkls p.business_id (pklOf p)
  | net f =>
    rw [hp] at h
    simp only [Except.ok.injEq] at h
    rw [← h]
    exact lookupKey_insertKey st.pkls p.business_id (pklOf p)

lemma predictEndpoint_404 (ord : Encoders) (st : Store) (bid : String)
    (b e : ℤ) (items : List String)
    (h : lookupKey st.pkls bid = none) :
    predictEndpoint ord st bid b e items = 404 := by
  unfold predictEndpoint loadP
  rw [h]

lemma train_business_id (netT : List (List (List ℚ) × List (List ℚ)) → NetFn)
    (bid : String) (raw : List SalesRecord) :
    (train netT bid raw).business_id = bid := rfl

/-- C10: once a /retrain request passes the missing-field validation, both
previously persisted artifacts of the business are deleted before any
training starts; consequently a 500 response leaves no model persisted for
the business (the only artifact a valid retrain can leave is the freshly
trained one), and a subsequent /predict for it answers 404. -/
theorem c10_retrain_deletes_then_500_leaves_nothing
    (netT : List (List (List ℚ) × List (List ℚ)) → NetFn)
    (vm : MetricsR) (ord : Encoders) (st : Store) (bid : String)
    (raw : List SalesRecord) (b e : ℤ) (items : List String)
    (hbid : bid ≠ "") (hraw : raw ≠ []) :
    ((retrain netT vm ord st bid raw).2.status = 500 →
      lookupKey (retrain netT vm ord st bid raw).1.pkls bid = none ∧
      lookupKey (retrain netT vm ord st bid raw).1.pths bid = none ∧
      predictEndpoint ord (retrain netT vm ord st bid raw).1 bid b e
        items = 404) ∧
    (lookupKey (retrain netT vm ord st bid raw).1.pkls bid = none ∨
      lookupKey (retrain netT vm ord st bid raw).1.pkls bid =
        some (pklOf (train netT bid raw))) := by
  have hval : ¬(bid = "" ∨ raw = []) := by
    rintro (h | h)
    · exact hbid h
    · exact hraw h
  unfold retrain
  rw [if_neg hval]
  have hepkl : lookupKey (eraseBusiness st bid).pkls bid = none :=
    lookupKey_eraseKey st.pkls bid
  have hepth : lookupKey (eraseBusiness st bid).pths bid = none :=
    lookupKey_eraseKey st.pths bid
  cases hph : retrainValidationPhase netT vm ord bid (sortByDate raw) with
  | error e2 =>
    refine ⟨fun _ => ⟨hepkl, hepth, ?_⟩, Or.inl hepkl⟩
    exact predictEndpoint_404 ord _ bid b e items hepkl
  | ok pr =>
    obtain ⟨m, r⟩ := pr
    simp only [retrainDispatch]
    unfold retrainFinish
    cases hsv : saveP (eraseBusiness st bid) (train netT bid raw) with
    | error e2 =>
      refine ⟨fun _ => ⟨hepkl, hepth, ?_⟩, Or.inl hepkl⟩
      exact predictEndpoint_404 ord _ bid b e items hepkl
    | ok st2 =>
      constructor
      · intro h500
        exact absurd (show (200 : Nat) = 500 from h500) (by decide)
      · right
        have := saveP_ok_pkl (eraseBusiness st bid) (train netT bid raw)
          st2 hsv
        rw [train_business_id] at this
        exact this

/-- Witness for C10: an old artifact pair for biz_001 plus the crashing
ten-row retrain leaves an empty slot and a 404 /predict. -/
theorem c10_retrain_deletes_then_500_leaves_nothing_witness :
    lookupKey (retrain netT0 zeroMetrics ordE0
      { pkls := [("biz_001", pklOf (train netT0 "biz_001" raw40))],
        pths := [] } "biz_001" raw10).1.pkls "biz_001" = none ∧
    predictEndpoint ordE0 (retrain netT0 zeroMetrics ordE0
      { pkls := [("biz_001", pklOf (train netT0 "biz_001" raw40))],
        pths := [] } "biz_001" raw10).1 "biz_001" 0 2 ["A"] = 404 := by
  have h := c10_retrain_deletes_then_500_leaves_nothing netT0 zeroMetrics
    ordE0
    { pkls := [("biz_001", pklOf (train netT0 "biz_001" raw40))],
      pths := [] }
    "biz_001" raw10 0 2 ["A"] (by decide)
    (by intro h; exact absurd (congrArg List.length h) (by decide))
  have h500 := h.1 (by rfl)
  exact ⟨h500.1, h500.2.2⟩

/-! ### Lemmas about the autoregressive loop -/

/-- A reported prediction is well-formed: non-negative amount, non-negative
integer quantity, confidence within [0, 100]. -/
def EntryOK (p : PredEntry) : Prop :=
  0 ≤ p.sales_amount ∧ 0 ≤ p.sales_quantity ∧
  0 ≤ p.confidence_score ∧ p.confidence_score ≤ 100

lemma getD_mem {β : Type} (l : List β) (i : Nat) (d : β)
    (h : i < l.length) : l.getD i d ∈ l := by
  rw [List.getD_eq_getElem?_getD, List.getElem?_eq_getElem h]
  exact List.getElem_mem h

lemma lookupKey_mem {β : Type} (l : List (String × β)) (k : String) (v : β)
    (h : lookupKey l k = some v) : (k, v) ∈ l := by
  induction l with
  | nil => exact absurd h (by simp [lookupKey])
  | cons q rest ih =>
    unfold lookupKey at h
    split_ifs at h with hq
    · simp only [Option.some.injEq] at h
      rw [← hq, ← h]
      simp
    · simp [ih h]

lemma mem_zipWith_cons (as : List PredEntry) (bs : List (List PredEntry))
    (l : List PredEntry)
    (h : l ∈ List.zipWith (fun a b => a :: b) as bs) :
    ∃ a ∈ as, ∃ b ∈ bs, l = a :: b := by
  induction as generalizing bs with
  | nil => simp at h
  | cons a as ih =>
    cases bs with
    | nil => simp at h
    | cons b bs =>
      simp only [List.zipWith, List.mem_cons] at h
      rcases h with h | h
      · exact ⟨a, by simp, b, by simp, h⟩
      · obtain ⟨a2, ha, b2, hb, hl⟩ := ih bs h
        exact ⟨a2, by simp [ha], b2, by simp [hb], hl⟩

lemma autoStep_length (f : NetFn) (r : List ℚ)
    (ctxs : List (List (List ℚ))) :
    (autoStep f r ctxs).length = ctxs.length := by
  simp [autoStep]

lemma autoStep_entry_ok (f : NetFn) (r : List ℚ)
    (ctxs : List (List (List ℚ))) :
    ∀ pc ∈ autoStep f r ctxs, EntryOK pc.1 := by
  intro pc hpc
  unfold autoStep at hpc
  simp only [List.mem_map, List.mem_range] at hpc
  obtain ⟨idx, _, hpc⟩ := hpc
  rw [← hpc]
  refine ⟨le_max_left 0 _, pyTrunc_nonneg _ (le_max_left 0 _), ?_, ?_⟩
  · exact (pyRound1_bounds _ (le_max_left 0 _)
      (max_le (by norm_num) (min_le_left _ _))).1
  · exact (pyRound1_bounds _ (le_max_left 0 _)
      (max_le (by norm_num) (min_le_left _ _))).2

lemma autoStep_ctx_length (f : NetFn) (r : List ℚ)
    (ctxs : List (List (List ℚ)))
    (hall : ∀ c ∈ ctxs, c.length = contextWindow) :
    ∀ pc ∈ autoStep f r ctxs, pc.2.length = contextWindow := by
  intro pc hpc
  unfold autoStep at hpc
  simp only [List.mem_map, List.mem_range] at hpc
  obtain ⟨idx, hidx, hpc⟩ := hpc
  rw [← hpc]
  have hc : ctxs.getD idx [] ∈ ctxs := getD_mem ctxs idx [] hidx
  have hl : (ctxs.getD idx []).length = contextWindow := hall _ hc
  simp only [List.length_append, List.length_drop, hl, List.length_cons,
    List.length_nil]
  simp [contextWindow]

lemma autoLoop_fst_length (f : NetFn) (rows : List (List ℚ))
    (ctxs : List (List (List ℚ))) :
    (autoLoop f rows ctxs).1.length = ctxs.length := by
  induction rows generalizing ctxs with
  | nil => simp [autoLoop]
  | cons r rest ih =>
    unfold autoLoop
    simp only [List.length_zipWith, List.length_map, autoStep_length]
    rw [ih]
    simp [autoStep_length]

lemma autoLoop_mem_length (f : NetFn) (rows : List (List ℚ))
    (ctxs : List (List (List ℚ))) :
    ∀ l ∈ (autoLoop f rows ctxs).1, l.length = rows.length := by
  induction rows generalizing ctxs with
  | nil =>
    intro l hl
    unfold autoLoop at hl
    simp only [List.mem_map] at hl
    obtain ⟨c, _, hl⟩ := hl
    simp [← hl]
  | cons r rest ih =>
    intro l hl
    unfold autoLoop at hl
    obtain ⟨a, _, b, hb, hl⟩ := mem_zipWith_cons _ _ l hl
    rw [hl]
    simp [ih _ b hb]

lemma autoLoop_entry_ok (f : NetFn) (rows : List (List ℚ))
    (ctxs : List (List (List ℚ))) :
    ∀ l ∈ (autoLoop f rows ctxs).1, ∀ q ∈ l, EntryOK q := by
  induction rows generalizing ctxs with
  | nil =>
    intro l hl q hq
    unfold autoLoop at hl
    simp only [List.mem_map] at hl
    obtain ⟨c, _, hl⟩ := hl
    rw [← hl] at hq
    simp at hq
  | cons r rest ih =>
    intro l hl q hq
    unfold autoLoop at hl
    obtain ⟨a, ha, b, hb, hl⟩ := mem_zipWith_cons _ _ l hl
    rw [hl] at hq
    rcases List.mem_cons.mp hq with hq | hq
    · simp only [List.mem_map] at ha
      obtain ⟨pc, hpc, hpa⟩ := ha
      rw [hq, ← hpa]
      exact autoStep_entry_ok f r ctxs pc hpc
    · exact ih _ b hb q hq

lemma autoLoop_ctx_length (f : NetFn) (rows : List (List ℚ))
    (ctxs : List (List (List ℚ)))
    (hall : ∀ c ∈ ctxs, c.length = contextWindow) :
    ∀ c ∈ (autoLoop f rows ctxs).2, c.length = contextWindow := by
  induction rows generalizing ctxs with
  | nil =>
    intro c hc
    unfold autoLoop at hc
    exact hall c hc
  | cons r rest ih =>
    intro c hc
    unfold autoLoop at hc
    refine ih (autoStep f r ctxs |>.map Prod.snd) ?_ c hc
    intro c2 hc2
    simp only [List.mem_map] at hc2
    obtain ⟨pc, hpc, hc2⟩ := hc2
    rw [← hc2]
    exact autoStep_ctx_length f r ctxs hall pc hpc

lemma tailN_length_le {β : Type} (n : Nat) (xs : List β) :
    (tailN n xs).length ≤ n := by
  unfold tailN
  simp only [List.length_drop]
  omega

lemma lookupKey_map_pair {β : Type} (l : List String) (g : String → β)
    (it : String) (c : β)
    (h : lookupKey (l.map fun x => (x, g x)) it = some c) :
    ∃ x ∈ l, c = g x := by
  induction l with
  | nil => exact absurd h (by simp [lookupKey])
  | cons x xs ih =>
    simp only [List.map_cons] at h
    unfold lookupKey at h
    split_ifs at h with hx
    · simp only [Option.some.injEq] at h
      exact ⟨x, by simp, h.symm⟩
    · obtain ⟨y, hy, hc⟩ := ih h
      exact ⟨y, by simp [hy], hc⟩

/-- C9: the running context windows of autoregressive prediction.  (a) every
per-item trailing context a trained predictor stores has at most L = 60
rows; (b) the seed context built from any stored context of at most 60 rows
(or from a missing one) has exactly 60 rows; (c) a missing context seeds as
the all-zero window; (d) every step maps a batch of 60-row contexts to
60-row contexts; (e) each update drops exactly the oldest row and appends
exactly one new row; (f) after any number of autoregressive days every
context still has exactly 60 rows. -/
theorem c9_context_window_always_60 :
    (∀ (netT : List (List (List ℚ) × List (List ℚ)) → NetFn)
        (bid : String) (raw : List SalesRecord) (it : String)
        (c : List (List ℚ)),
      lookupKey (train netT bid raw).last_context it = some c →
        c.length ≤ 60) ∧
    (∀ (nf : Nat) (ctx? : Option (List (List ℚ))),
      (∀ c, ctx? = some c → c.length ≤ 60) →
        (seedCtx nf ctx?).length = 60) ∧
    (∀ nf : Nat, seedCtx nf none = List.replicate 60 (List.replicate nf 0)) ∧
    (∀ (f : NetFn) (frow : List ℚ) (ctxs : List (List (List ℚ))),
      (∀ c ∈ ctxs, c.length = 60) →
        ∀ pc ∈ autoStep f frow ctxs, pc.2.length = 60) ∧
    (∀ (f : NetFn) (frow : List ℚ) (ctxs : List (List (List ℚ)))
        (idx : Nat), idx < ctxs.length →
      ∃ nr, ((autoStep f frow ctxs).getD idx (zeroPredEntry, [])).2 =
        (ctxs.getD idx []).drop 1 ++ [nr]) ∧
    (∀ (f : NetFn) (rows : List (List ℚ)) (ctxs : List (List (List ℚ))),
      (∀ c ∈ ctxs, c.length = 60) →
        ∀ c ∈ (autoLoop f rows ctxs).2, c.length = 60) := by
  refine ⟨?_, ?_, ?_, ?_, ?_, ?_⟩
  · intro netT bid raw it c h
    have htc : (train netT bid raw).last_context =
        (uniqAux [] ((sortByDate raw).map (·.product_id))).map fun it2 =>
          (it2, tailN contextWindow
            (((sortByDate raw).filter (fun r => r.product_id = it2)).map
              (featureRowTrain (fitEncoders (sortByDate raw))))) := rfl
    rw [htc] at h
    obtain ⟨x, _, hc⟩ := lookupKey_map_pair _ _ it c h
    rw [hc]
    exact tailN_length_le contextWindow _
  · intro nf ctx? h
    cases ctx? with
    | none => simp [seedCtx, contextWindow]
    | some c =>
      have hle : c.length ≤ 60 := h c rfl
      simp only [seedCtx]
      split_ifs with hlt
      · simp only [List.length_append, List.length_replicate]
        simp only [contextWindow] at hlt ⊢
        omega
      · simp only [contextWindow] at hlt
        omega
  · intro nf
    rfl
  · intro f frow ctxs hall pc hpc
    exact autoStep_ctx_length f frow ctxs (by simpa [contextWindow]
      using hall) pc hpc
  · intro f frow ctxs idx hidx
    unfold autoStep
    rw [getD_map_range _ _ _ _ hidx]
    exact ⟨_, rfl⟩
  · intro f rows ctxs hall c hc
    exact autoLoop_ctx_length f rows ctxs (by simpa [contextWindow]
      using hall) c (by simpa using hc)

/-- Witness for C9 at concrete inputs: a stored 1-row context seeds to a
60-row window, an absent context seeds to the all-zero window, and one
concrete step keeps 60 rows while dropping the oldest row. -/
theorem c9_context_window_always_60_witness :
    (seedCtx 11 (some [[5, 1]])).length = 60 ∧
    seedCtx 3 none = List.replicate 60 (List.replicate 3 0) ∧
    (∃ nr, ((autoStep (netT0 []) [0] [List.replicate 60 [1, 2]]).getD 0
        (zeroPredEntry, [])).2 =
      ((List.replicate 60 ([1, 2] : List ℚ)).drop 1) ++ [nr]) := by
  refine ⟨?_, ?_, ?_⟩
  · exact c9_context_window_always_60.2.1 11 (some [[5, 1]])
      (by intro c hc; cases hc; decide)
  · exact c9_context_window_always_60.2.2.1 3
  · have h := c9_context_window_always_60.2.2.2.2.1 (netT0 []) [0]
      [List.replicate 60 [1, 2]] 0 (by simp)
    simpa using h

lemma pyDictGet_nonneg (stats : List (String × NaiveStat)) (it : String)
    (hstats : ∀ s ∈ stats, 0 ≤ (Prod.snd s).amount_avg ∧
      0 ≤ (Prod.snd s).qty_avg) :
    0 ≤ (pyDictGet stats it).amount_avg ∧
    0 ≤ (pyDictGet stats it).qty_avg := by
  unfold pyDictGet
  cases hl : lookupKey stats it with
  | none => exact ⟨le_refl 0, le_refl 0⟩
  | some s => exact hstats (it, s) (lookupKey_mem _ _ _ hl)

lemma formatForecast_ok (fc : List (String × List PredEntry))
    (future : List SalesRecord) (items : List String)
    (hfc : ∀ pr ∈ fc, ∀ q ∈ pr.2, EntryOK q) :
    (formatForecast fc future items).length = future.length ∧
    ∀ day ∈ formatForecast fc future items,
      day.length = items.length ∧ ∀ ip ∈ day, EntryOK ip.2 := by
  have hdefault : EntryOK zeroPredEntry :=
    ⟨le_refl 0, le_refl 0, le_refl 0, by norm_num [zeroPredEntry]⟩
  constructor
  · simp [formatForecast]
  · intro day hday
    unfold formatForecast at hday
    simp only [List.mem_map, List.mem_range] at hday
    obtain ⟨i, _, hday⟩ := hday
    rw [← hday]
    refine ⟨by simp, ?_⟩
    intro ip hip
    simp only [List.mem_map] at hip
    obtain ⟨it, _, hip⟩ := hip
    rw [← hip]
    cases hl : lookupKey fc it with
    | none =>
      simpa using hdefault
    | some l =>
      by_cases hlen : i < l.length
      · exact hfc _ (lookupKey_mem fc it l hl) _ (getD_mem l i _ hlen)
      · have hd : l[i]?.getD zeroPredEntry = zeroPredEntry := by
          rw [List.getElem?_eq_none (by omega)]
          rfl
        simpa [hd] using hdefault

/-- A predictor in a state the training path can legitimately produce: a
naive model whose per-item dict exists and holds the non-negative trailing
averages of data satisfying the SalesRecord invariants, or a learned model
with an attached network.  (The state the zero-window bug leaves behind —
model_type "naive" with model None — is exactly what this excludes; see the
C6 theorem.) -/
def PredictorWF (p : Predictor) : Prop :=
  (p.model_type = "naive" ∧ ∃ stats, p.payload = ModelPayload.naive stats ∧
    ∀ s ∈ stats, 0 ≤ (Prod.snd s).amount_avg ∧ 0 ≤ (Prod.snd s).qty_avg) ∨
  (p.model_type = "patchtst" ∧ ∃ f, p.payload = ModelPayload.net f)

/-- C2: for every predict_step_by_step invocation on a well-formed predictor
with D future entries and k requested item ids, the call returns (never
raises) a forecast with exactly one prediction list per requested item, each
of length exactly D, every prediction having sales_amount ≥ 0, an integer
sales_quantity ≥ 0 and confidence_score in [0, 100]; and the
/predict_custom response built from it has exactly D day entries, each
holding exactly k per-item predictions, all satisfying the same bounds. -/
theorem c2_predict_shape_and_bounds (ord : Encoders) (p : Predictor)
    (future : List SalesRecord) (reqItems : List String)
    (hwf : PredictorWF p) :
    ∃ fc, predictStepByStep ord p future reqItems = .ok fc ∧
      fc.length = reqItems.length ∧
      (∀ pr ∈ fc, pr.2.length = future.length ∧ ∀ q ∈ pr.2, EntryOK q) ∧
      (formatForecast fc future reqItems).length = future.length ∧
      (∀ day ∈ formatForecast fc future reqItems,
        day.length = reqItems.length ∧ ∀ ip ∈ day, EntryOK ip.2) := by
  rcases hwf with ⟨hmt, stats, hpl, hstats⟩ | ⟨hmt, f, hpl⟩
  · have heq : predictStepByStep ord p future reqItems =
        .ok (reqItems.map fun it =>
          (it, List.replicate future.length
            { sales_amount := (pyDictGet stats it).amount_avg,
              sales_quantity := pyTrunc (pyDictGet stats it).qty_avg,
              confidence_score := 50 })) := by
      unfold predictStepByStep
      rw [hmt, hpl]
      rfl
    have hok : ∀ pr ∈ (reqItems.map fun it =>
        (it, List.replicate future.length
          { sales_amount := (pyDictGet stats it).amount_avg,
            sales_quantity := pyTrunc (pyDictGet stats it).qty_avg,
            confidence_score := (50 : ℚ) })),
        pr.2.length = future.length ∧ ∀ q ∈ pr.2, EntryOK q := by
      intro pr hpr
      simp only [List.mem_map] at hpr
      obtain ⟨it, _, hpr⟩ := hpr
      rw [← hpr]
      refine ⟨by simp, ?_⟩
      intro q hq
      have hqe := List.eq_of_mem_replicate hq
      rw [hqe]
      exact ⟨(pyDictGet_nonneg stats it hstats).1,
        pyTrunc_nonneg _ (pyDictGet_nonneg stats it hstats).2,
        by norm_num, by norm_num⟩
    refine ⟨_, heq, by simp, hok, ?_, ?_⟩
    · exact (formatForecast_ok _ future reqItems
        (fun pr hpr q hq => (hok pr hpr).2 q hq)).1
    · exact (formatForecast_ok _ future reqItems
        (fun pr hpr q hq => (hok pr hpr).2 q hq)).2
  · have heq : predictStepByStep ord p future reqItems =
        .ok (List.zip reqItems
          (autoLoop f (future.map (featureRowInfer p.label_encoders ord))
            (reqItems.map fun it =>
              seedCtx p.num_features (lookupKey p.last_context it))).1) := by
      unfold predictStepByStep
      rw [hmt, hpl]
      rfl
    have hll : (autoLoop f
        (future.map (featureRowInfer p.label_encoders ord))
        (reqItems.map fun it =>
          seedCtx p.num_features (lookupKey p.last_context it))).1.length =
        reqItems.length := by
      rw [autoLoop_fst_length]
      simp
    have hok : ∀ pr ∈ List.zip reqItems
        (autoLoop f (future.map (featureRowInfer p.label_encoders ord))
          (reqItems.map fun it =>
            seedCtx p.num_features (lookupKey p.last_context it))).1,
        pr.2.length = future.length ∧ ∀ q ∈ pr.2, EntryOK q := by
      intro pr hpr
      obtain ⟨a, b⟩ := pr
      have hb := (List.of_mem_zip hpr).2
      constructor
      · rw [autoLoop_mem_length _ _ _ b hb]
        simp
      · exact autoLoop_entry_ok _ _ _ b hb
    refine ⟨_, heq, by rw [List.length_zip, hll, min_self], hok, ?_, ?_⟩
    · exact (formatForecast_ok _ future reqItems
        (fun pr hpr q hq => (hok pr hpr).2 q hq)).1
    · exact (formatForecast_ok _ future reqItems
        (fun pr hpr q hq => (hok pr hpr).2 q hq)).2

/-- A concrete well-formed naive predictor for the C2 witness. -/
def predN0 : Predictor :=
  { business_id := "biz_001", model_type := "naive",
    payload := .naive [("A", { amount_avg := 3, qty_avg := 2 })],
    label_encoders := ordE0, last_context := [], item_ids := ["A"],
    num_features := 0 }

/-- Witness for C2: three future days and two requested items on a concrete
naive predictor. -/
theorem c2_predict_shape_and_bounds_witness :
    ∃ fc, predictStepByStep ordE0 predN0
        [mkFuture 0, mkFuture 1, mkFuture 2] ["A", "B"] = .ok fc ∧
      fc.length = (["A", "B"] : List String).length ∧
      (∀ pr ∈ fc, pr.2.length =
          ([mkFuture 0, mkFuture 1, mkFuture 2] : List SalesRecord).length ∧
        ∀ q ∈ pr.2, EntryOK q) ∧
      (formatForecast fc [mkFuture 0, mkFuture 1, mkFuture 2]
        ["A", "B"]).length =
        ([mkFuture 0, mkFuture 1, mkFuture 2] : List SalesRecord).length ∧
      (∀ day ∈ formatForecast fc [mkFuture 0, mkFuture 1, mkFuture 2]
          ["A", "B"],
        day.length = (["A", "B"] : List String).length ∧
        ∀ ip ∈ day, EntryOK ip.2) :=
  c2_predict_shape_and_bounds ordE0 predN0
    [mkFuture 0, mkFuture 1, mkFuture 2] ["A", "B"]
    (Or.inl ⟨rfl, [("A", { amount_avg := 3, qty_avg := 2 })], rfl,
      by decide⟩)
